import Mathlib

/-!
Verification of the mandelbrot escape-path demo (`src/src/main.rs`) against its
natural-language specification.

Floating-point values are embedded abstractly: a `FloatOps F` record carries the
arithmetic and library operations (`log2`, `powf`, `Complex::norm`,
`hsl_to_rgb`, the `as u8` cast, float literals) that the Rust code applies, so
theorems about the color mapper hold for every interpretation of the float
operations, and a concrete rational instance (`qOps`) evaluates them in
witnesses.  Screen-coordinate arithmetic (which uses only `+ - * /` and casts)
is embedded over `ℚ`.
-/

/-- Abstract interpretation of the f32 operations used by `main.rs`.
`ofRat` interprets a float literal, `toU8` the `as u8` cast, `rem` the Rust
`%` operator on floats, `norm` is `Complex::norm` (from real and imaginary
part), and `hsl_to_rgb` is the macroquad library palette conversion. -/
structure FloatOps (F : Type) where
  add : F → F → F
  sub : F → F → F
  mul : F → F → F
  div : F → F → F
  rem : F → F → F
  powf : F → F → F
  log2 : F → F
  norm : F → F → F
  ofRat : ℚ → F
  toU8 : F → Nat
  hsl_to_rgb : F → F → F → F × F × F × F

/-- An escape record, `(Option<usize>, Vec<Complex<f32>>)` in the source:
the optional escape time and the orbit path, a complex number being a pair
of floats. -/
def EscapeRecord (F : Type) : Type := Option Nat × List (F × F)

/-- Embedding of `rgba_to_array` from `main.rs`: each channel of the color
(an `(r, g, b, a)` quadruple of floats) is multiplied by `255.0` and cast
to a byte. -/
def rgba_to_array {F : Type} (ops : FloatOps F) (color : F × F × F × F) : List Nat :=
  [ ops.toU8 (ops.mul color.1 (ops.ofRat 255))
  , ops.toU8 (ops.mul color.2.1 (ops.ofRat 255))
  , ops.toU8 (ops.mul color.2.2.1 (ops.ofRat 255))
  , ops.toU8 (ops.mul color.2.2.2 (ops.ofRat 255)) ]

/-- Embedding of the per-record color closure inside `create_mandelbrot_image`
(`main.rs` lines 92-107).  `none` as a result models the panic of
`escape_path.last().expect(..)` on an empty path; every non-panicking outcome
is `some` of the four RGBA bytes. -/
def escape_record_color {F : Type} (ops : FloatOps F) (iteration_max : Nat)
    (record : EscapeRecord F) : Option (List Nat) :=
  match record.1 with
  | some escape_time =>
    match record.2.getLast? with
    | none => none
    | some last_z =>
      let smoothed_iteration :=
        ops.sub (ops.add (ops.ofRat (escape_time : ℚ)) (ops.ofRat 1))
          (ops.log2 (ops.log2 (ops.norm last_z.1 last_z.2)))
      let normalized := ops.div smoothed_iteration (ops.ofRat (iteration_max : ℚ))
      let hue := ops.powf (ops.rem normalized (ops.ofRat 1)) (ops.ofRat (7/10))
      let saturation := ops.ofRat 1
      let luminance := ops.mul (ops.powf normalized (ops.ofRat (3/10))) (ops.ofRat (1/2))
      some (rgba_to_array ops (ops.hsl_to_rgb hue saturation luminance))
  | none => some [0, 0, 0, 255]

/-- A concrete rational interpretation of the float operations, used only to
evaluate the abstract theorems at concrete inputs in witnesses. -/
def qOps : FloatOps ℚ where
  add := fun a b => a + b
  sub := fun a b => a - b
  mul := fun a b => a * b
  div := fun a b => a / b
  rem := fun a b => a - b * (Int.floor (a / b) : ℚ)
  powf := fun a _ => a
  log2 := fun a => a
  norm := fun a b => a * a + b * b
  ofRat := fun q => q
  toU8 := fun q => (Int.floor q).toNat
  hsl_to_rgb := fun h s l => (h, s, l, 1)

/-- C1: for every escape record with `escape_time = Some n` (its last path
value being `z`) and `iteration_max > 0`, the smoothed hue branch of the
color mapper produces exactly the RGBA color obtained from
`smoothed = n + 1 - log2 (log2 |z|)`, `normalized = smoothed / iteration_max`,
`hue = (normalized mod 1) ^ 0.7`, `saturation = 1`,
`luminance = normalized ^ 0.3 * 0.5`, converted from HSL to RGBA bytes. -/
theorem C1_smoothed_hue_formula {F : Type} (ops : FloatOps F)
    (n iteration_max : Nat) (path : List (F × F)) (z : F × F)
    (hmax : 0 < iteration_max) (hlast : path.getLast? = some z) :
    escape_record_color ops iteration_max (some n, path) =
      some (rgba_to_array ops
        (ops.hsl_to_rgb
          (ops.powf
            (ops.rem
              (ops.div
                (ops.sub (ops.add (ops.ofRat (n : ℚ)) (ops.ofRat 1))
                  (ops.log2 (ops.log2 (ops.norm z.1 z.2))))
                (ops.ofRat (iteration_max : ℚ)))
              (ops.ofRat 1))
            (ops.ofRat (7/10)))
          (ops.ofRat 1)
          (ops.mul
            (ops.powf
              (ops.div
                (ops.sub (ops.add (ops.ofRat (n : ℚ)) (ops.ofRat 1))
                  (ops.log2 (ops.log2 (ops.norm z.1 z.2))))
                (ops.ofRat (iteration_max : ℚ)))
              (ops.ofRat (3/10)))
            (ops.ofRat (1/2))))) := by
  simp [escape_record_color, hlast]

/-- Witness for C1 at a concrete input over `ℚ`. -/
theorem C1_witness :
    escape_record_color qOps 2 (some 1, [((3 : ℚ), (0 : ℚ))]) =
      some (rgba_to_array qOps
        (qOps.hsl_to_rgb
          (qOps.powf
            (qOps.rem
              (qOps.div
                (qOps.sub (qOps.add (qOps.ofRat ((1 : Nat) : ℚ)) (qOps.ofRat 1))
                  (qOps.log2 (qOps.log2 (qOps.norm 3 0))))
                (qOps.ofRat ((2 : Nat) : ℚ)))
              (qOps.ofRat 1))
            (qOps.ofRat (7/10)))
          (qOps.ofRat 1)
          (qOps.mul
            (qOps.powf
              (qOps.div
                (qOps.sub (qOps.add (qOps.ofRat ((1 : Nat) : ℚ)) (qOps.ofRat 1))
                  (qOps.log2 (qOps.log2 (qOps.norm 3 0))))
                (qOps.ofRat ((2 : Nat) : ℚ)))
              (qOps.ofRat (3/10)))
            (qOps.ofRat (1/2))))) :=
  C1_smoothed_hue_formula qOps 1 2 [((3 : ℚ), (0 : ℚ))] ((3 : ℚ), (0 : ℚ))
    (by decide) rfl

/-- C2: an escape record with `escape_time = None` is mapped to the fixed
sentinel black with alpha 255, RGBA bytes `[0, 0, 0, 255]`, independent of
`iteration_max` and of the record's path. -/
theorem C2_bounded_black {F : Type} (ops : FloatOps F) (iteration_max : Nat)
    (path : List (F × F)) :
    escape_record_color ops iteration_max (none, path) = some [0, 0, 0, 255] :=
  rfl

/-- C8: for every record with `escape_time = Some n` whose path is non-empty,
the extraction of the last path value never reaches the panic branch of
`escape_path.last().expect(..)` — the color mapper returns a value. -/
theorem C8_expect_unreachable {F : Type} (ops : FloatOps F)
    (n iteration_max : Nat) (path : List (F × F)) (hpath : path ≠ []) :
    (escape_record_color ops iteration_max (some n, path)).isSome = true := by
  obtain ⟨z, hz⟩ := Option.isSome_iff_exists.mp
    ((List.getLast?_isSome (l := path)).mpr hpath)
  simp [escape_record_color, hz]

/-- Witness for C8 at a concrete input over `ℚ`. -/
theorem C8_witness :
    (escape_record_color qOps 3 (some 0, [((0 : ℚ), (0 : ℚ))])).isSome = true :=
  C8_expect_unreachable qOps 0 3 [((0 : ℚ), (0 : ℚ))] (by decide)

/-- The RGBA bytes of macroquad's `BLACK`, the fill color of the blank image
`Image::gen_image_color(w, h, BLACK)` that `create_mandelbrot_image` starts
from. -/
def blackRgba : List Nat := [0, 0, 0, 255]

/-- Maps `f` over a list, failing (modelling a panic) as soon as `f` does. -/
def mapOption {α β : Type} (f : α → Option β) : List α → Option (List β)
  | [] => some []
  | a :: as =>
    match f a, mapOption f as with
    | some b, some bs => some (b :: bs)
    | _, _ => none

/-- Embedding of `create_mandelbrot_image` (`main.rs` lines 80-111): a blank
`width * height` image of `BLACK` pixels has each pixel zipped with the
corresponding escape record and overwritten by that record's color.  `zip`
truncates to the shorter side, so only the first `width * height` records are
consumed and pixels beyond the data length stay black.  The result is `none`
when some consumed record makes the color closure panic. -/
def create_mandelbrot_image {F : Type} (ops : FloatOps F)
    (width height iteration_max : Nat) (mandelbrot_data : List (EscapeRecord F)) :
    Option (List (List Nat)) :=
  (mapOption (escape_record_color ops iteration_max)
      (mandelbrot_data.take (width * height))).map
    (fun colored => colored ++ List.replicate (width * height - mandelbrot_data.length) blackRgba)

theorem mapOption_of_isSome {α β : Type} (f : α → Option β) :
    ∀ l : List α, (∀ a ∈ l, (f a).isSome) →
      ∃ l', mapOption f l = some l' ∧ l'.length = l.length ∧
        ∀ j : Nat, l'[j]? = (l[j]?).bind f := by
  intro l
  induction l with
  | nil => intro _; exact ⟨[], rfl, rfl, fun j => by simp⟩
  | cons a as ih =>
    intro h
    obtain ⟨b, hb⟩ := Option.isSome_iff_exists.mp (h a (List.mem_cons_self a as))
    obtain ⟨bs, hbs, hlen, hget⟩ := ih (fun x hx => h x (List.mem_cons_of_mem a hx))
    refine ⟨b :: bs, ?_, by simp [hlen], ?_⟩
    · simp [mapOption, hb, hbs]
    · intro j
      cases j with
      | zero => simp [hb]
      | succ j => simpa using hget j

theorem escape_record_color_isSome {F : Type} (ops : FloatOps F)
    (iteration_max : Nat) (r : EscapeRecord F) (h : r.2 ≠ []) :
    (escape_record_color ops iteration_max r).isSome = true := by
  obtain ⟨et, path⟩ := r
  cases et with
  | none => rfl
  | some n =>
    obtain ⟨z, hz⟩ := Option.isSome_iff_exists.mp
      ((List.getLast?_isSome (l := path)).mpr h)
    simp [escape_record_color, hz]

theorem create_mandelbrot_image_spec {F : Type} (ops : FloatOps F)
    (width height iteration_max : Nat) (data : List (EscapeRecord F))
    (hlen : data.length = width * height) (hWF : ∀ r ∈ data, r.2 ≠ []) :
    ∃ buf, create_mandelbrot_image ops width height iteration_max data = some buf ∧
      buf.length = width * height ∧
      ∀ j : Nat, buf[j]? = (data[j]?).bind (escape_record_color ops iteration_max) := by
  have htake : data.take (width * height) = data := by
    rw [← hlen]; exact data.take_length
  obtain ⟨buf, hbuf, hblen, hbget⟩ :=
    mapOption_of_isSome (escape_record_color ops iteration_max) data
      (fun r hr => escape_record_color_isSome ops iteration_max r (hWF r hr))
  refine ⟨buf, ?_, by rw [hblen, hlen], hbget⟩
  simp [create_mandelbrot_image, htake, hbuf, hlen]

/-- C6: given a grid whose length equals `width * height` and whose records
all carry a non-empty path (the grid invariant), the color mapper produces a
pixel buffer of the same cardinality and the same row-major indexing, the
color at index `i` derived purely from the escape record at index `i` and
`iteration_max`. -/
theorem C6_buffer_pointwise {F : Type} (ops : FloatOps F)
    (width height iteration_max : Nat) (data : List (EscapeRecord F))
    (hlen : data.length = width * height) (hWF : ∀ r ∈ data, r.2 ≠ []) :
    ∃ buf, create_mandelbrot_image ops width height iteration_max data = some buf ∧
      buf.length = width * height ∧
      ∀ j : Nat, buf[j]? = (data[j]?).bind (escape_record_color ops iteration_max) :=
  create_mandelbrot_image_spec ops width height iteration_max data hlen hWF

/-- Witness for C6 at a concrete input over `ℚ`: a 1-by-2 grid with one
bounded and one escaped record. -/
theorem C6_witness :
    ∃ buf, create_mandelbrot_image qOps 1 2 5
        [((none : Option Nat), [((0 : ℚ), (0 : ℚ))]),
         (some 0, [((0 : ℚ), (0 : ℚ)), ((3 : ℚ), (0 : ℚ))])] = some buf ∧
      buf.length = 1 * 2 ∧
      ∀ j : Nat, buf[j]? =
        (([((none : Option Nat), [((0 : ℚ), (0 : ℚ))]),
           (some 0, [((0 : ℚ), (0 : ℚ)), ((3 : ℚ), (0 : ℚ))])][j]?).bind
          (escape_record_color qOps 5)) :=
  C6_buffer_pointwise qOps 1 2 5
    [((none : Option Nat), [((0 : ℚ), (0 : ℚ))]),
     (some 0, [((0 : ℚ), (0 : ℚ)), ((3 : ℚ), (0 : ℚ))])]
    (by decide) (by decide)

/-- The color destined for grid slot `i`: the record at index `i` (if any)
fed through the color closure.  In the zipped parallel pass of
`create_mandelbrot_image` this value depends only on `i`, the data and
`iteration_max` — never on any other slot. -/
def cellValue {F : Type} (ops : FloatOps F) (iteration_max : Nat)
    (data : List (EscapeRecord F)) (i : Nat) : Option (List Nat) :=
  (data[i]?).bind (escape_record_color ops iteration_max)

/-- One parallel worker's action in the zipped pass: it overwrites its own
disjoint slot `i` with that cell's color (doing nothing when the slot has no
record or the color closure would panic). -/
def writeCell {F : Type} (ops : FloatOps F) (iteration_max : Nat)
    (data : List (EscapeRecord F)) (buf : List (List Nat)) (i : Nat) :
    List (List Nat) :=
  match cellValue ops iteration_max data i with
  | some c => buf.set i c
  | none => buf

/-- The pixel buffer after the parallel workers run in the order given by the
schedule `s`: rayon's `par_iter_mut().zip(..).for_each(..)` with one worker
step per cell index, executed sequentially in an arbitrary order. -/
def runSchedule {F : Type} (ops : FloatOps F) (iteration_max : Nat)
    (data : List (EscapeRecord F)) (buf : List (List Nat)) (s : List Nat) :
    List (List Nat) :=
  s.foldl (writeCell ops iteration_max data) buf

theorem writeCell_length {F : Type} (ops : FloatOps F) (iteration_max : Nat)
    (data : List (EscapeRecord F)) (buf : List (List Nat)) (i : Nat) :
    (writeCell ops iteration_max data buf i).length = buf.length := by
  unfold writeCell
  cases cellValue ops iteration_max data i <;> simp

theorem writeCell_getElem? {F : Type} (ops : FloatOps F) (iteration_max : Nat)
    (data : List (EscapeRecord F)) (buf : List (List Nat)) (i j : Nat) :
    (writeCell ops iteration_max data buf i)[j]? =
      if i = j ∧ (cellValue ops iteration_max data j).isSome = true ∧ j < buf.length
      then cellValue ops iteration_max data j
      else buf[j]? := by
  unfold writeCell
  by_cases hij : i = j
  · subst hij
    cases hcv : cellValue ops iteration_max data i with
    | none => simp [hcv]
    | some c =>
      by_cases hlt : i < buf.length
      · simp [hcv, hlt, List.getElem?_set_self hlt]
      · rw [List.getElem?_set]
        simp only [if_pos rfl, if_neg hlt, hcv, hlt]
        rw [List.getElem?_eq_none (Nat.le_of_not_lt hlt)]
        simp
  · cases hcv : cellValue ops iteration_max data i with
    | none => simp [hij]
    | some c => simp [List.getElem?_set_ne hij, hij]

theorem runSchedule_getElem? {F : Type} (ops : FloatOps F) (iteration_max : Nat)
    (data : List (EscapeRecord F)) :
    ∀ (s : List Nat) (buf : List (List Nat)) (j : Nat),
      (runSchedule ops iteration_max data buf s)[j]? =
        if j ∈ s ∧ (cellValue ops iteration_max data j).isSome = true ∧ j < buf.length
        then cellValue ops iteration_max data j
        else buf[j]? := by
  intro s
  induction s with
  | nil => intro buf j; simp [runSchedule]
  | cons i s ih =>
    intro buf j
    have hstep : runSchedule ops iteration_max data buf (i :: s) =
        runSchedule ops iteration_max data (writeCell ops iteration_max data buf i) s := rfl
    rw [hstep, ih, writeCell_length, writeCell_getElem?]
    have hcomm : (j = i) ↔ (i = j) := ⟨fun h => h.symm, fun h => h.symm⟩
    by_cases hjs : j ∈ s <;> by_cases hij : i = j <;>
      by_cases hsome : (cellValue ops iteration_max data j).isSome = true <;>
      by_cases hlt : j < buf.length <;>
      simp [hjs, hij, hsome, hlt, List.mem_cons, hcomm]

theorem create_eq_runSchedule {F : Type} (ops : FloatOps F)
    (width height iteration_max : Nat) (data : List (EscapeRecord F))
    (hlen : data.length = width * height) (hWF : ∀ r ∈ data, r.2 ≠ [])
    (s : List Nat) (hs : s.Perm (List.range (width * height))) :
    create_mandelbrot_image ops width height iteration_max data =
      some (runSchedule ops iteration_max data
        (List.replicate (width * height) blackRgba) s) := by
  obtain ⟨buf, hbuf, hblen, hbget⟩ :=
    create_mandelbrot_image_spec ops width height iteration_max data hlen hWF
  rw [hbuf]
  congr 1
  apply List.ext_getElem?
  intro j
  rw [runSchedule_getElem?]
  have hmem : j ∈ s ↔ j < width * height := by
    rw [hs.mem_iff, List.mem_range]
  by_cases hj : j < width * height
  · have hdata : j < data.length := by rw [hlen]; exact hj
    have hsome : (cellValue ops iteration_max data j).isSome = true := by
      unfold cellValue
      rw [List.getElem?_eq_getElem hdata]
      exact escape_record_color_isSome ops iteration_max _
        (hWF _ (List.getElem_mem hdata))
    rw [if_pos ⟨hmem.mpr hj, hsome, by simp [hj]⟩, hbget j]
    rfl
  · rw [if_neg (fun hc => hj (hmem.mp hc.1)), hbget j]
    rw [List.getElem?_eq_none (by rw [hlen]; exact Nat.le_of_not_lt hj)]
    rw [List.getElem?_eq_none (by simp [Nat.le_of_not_lt hj])]
    rfl

/-- C7: with a well-formed grid of the declared size, running the parallel
pixel pass under any two schedules that each process every cell exactly once
produces bit-identical pixel buffers, and that common buffer is exactly the
one `create_mandelbrot_image` returns — the output does not depend on worker
scheduling or execution order. -/
theorem C7_schedule_independence {F : Type} (ops : FloatOps F)
    (width height iteration_max : Nat) (data : List (EscapeRecord F))
    (s₁ s₂ : List Nat)
    (hlen : data.length = width * height) (hWF : ∀ r ∈ data, r.2 ≠ [])
    (h1 : s₁.Perm (List.range (width * height)))
    (h2 : s₂.Perm (List.range (width * height))) :
    runSchedule ops iteration_max data
        (List.replicate (width * height) blackRgba) s₁ =
      runSchedule ops iteration_max data
        (List.replicate (width * height) blackRgba) s₂ ∧
    create_mandelbrot_image ops width height iteration_max data =
      some (runSchedule ops iteration_max data
        (List.replicate (width * height) blackRgba) s₁) := by
  have e1 := create_eq_runSchedule ops width height iteration_max data hlen hWF s₁ h1
  have e2 := create_eq_runSchedule ops width height iteration_max data hlen hWF s₂ h2
  exact ⟨Option.some.inj (e1.symm.trans e2), e1⟩

/-- Witness for C7 at a concrete input over `ℚ`: a 1-by-2 grid processed in
the two possible worker orders. -/
theorem C7_witness :
    runSchedule qOps 5
        [((none : Option Nat), [((0 : ℚ), (0 : ℚ))]),
         (some 0, [((0 : ℚ), (0 : ℚ)), ((3 : ℚ), (0 : ℚ))])]
        (List.replicate (1 * 2) blackRgba) [1, 0] =
      runSchedule qOps 5
        [((none : Option Nat), [((0 : ℚ), (0 : ℚ))]),
         (some 0, [((0 : ℚ), (0 : ℚ)), ((3 : ℚ), (0 : ℚ))])]
        (List.replicate (1 * 2) blackRgba) [0, 1] ∧
    create_mandelbrot_image qOps 1 2 5
        [((none : Option Nat), [((0 : ℚ), (0 : ℚ))]),
         (some 0, [((0 : ℚ), (0 : ℚ)), ((3 : ℚ), (0 : ℚ))])] =
      some (runSchedule qOps 5
        [((none : Option Nat), [((0 : ℚ), (0 : ℚ))]),
         (some 0, [((0 : ℚ), (0 : ℚ)), ((3 : ℚ), (0 : ℚ))])]
        (List.replicate (1 * 2) blackRgba) [1, 0]) :=
  C7_schedule_independence qOps 1 2 5
    [((none : Option Nat), [((0 : ℚ), (0 : ℚ))]),
     (some 0, [((0 : ℚ), (0 : ℚ)), ((3 : ℚ), (0 : ℚ))])]
    [1, 0] [0, 1] (by decide) (by decide) (by decide) (by decide)

/-- Embedding of `serialize_index` from `main.rs`: row-major flattening. -/
def serialize_index (row_index column_index width : Nat) : Nat :=
  row_index * width + column_index

/-- Models the Rust `as usize` cast applied to an f32 value: truncation
toward zero, saturating at zero for negative inputs (for non-negative inputs
this is the floor). -/
def f32_as_usize (q : ℚ) : Nat := (Int.floor q).toNat

/-- Embedding of `calculate_pixel_index` (`main.rs` lines 71-77); the value
of `screen_width()` is passed explicitly since it reads the window. -/
def calculate_pixel_index (screen_w : ℚ) (screen_position : ℚ × ℚ) : Nat :=
  serialize_index (f32_as_usize screen_position.2) (f32_as_usize screen_position.1)
    (f32_as_usize screen_w)

/-- C3: for every screen position with non-negative coordinates, the
pixel-index computation returns `row * pixel_width + column` with
`row = floor y`, `column = floor x` and `pixel_width` the (floor of the)
screen width — the row-major formula. -/
theorem C3_pixel_index_row_major (screen_w x y : ℚ)
    (hx : 0 ≤ x) (hy : 0 ≤ y) (hw : 0 ≤ screen_w) :
    (calculate_pixel_index screen_w (x, y) : ℤ) =
      Int.floor y * Int.floor screen_w + Int.floor x := by
  unfold calculate_pixel_index serialize_index f32_as_usize
  push_cast [Int.toNat_of_nonneg (Int.floor_nonneg.mpr hx),
    Int.toNat_of_nonneg (Int.floor_nonneg.mpr hy),
    Int.toNat_of_nonneg (Int.floor_nonneg.mpr hw)]
  ring

/-- Witness for C3 at a concrete input. -/
theorem C3_witness :
    (calculate_pixel_index 10 (2, 3) : ℤ) =
      Int.floor (3 : ℚ) * Int.floor (10 : ℚ) + Int.floor (2 : ℚ) :=
  C3_pixel_index_row_major 10 2 3 (by norm_num) (by norm_num) (by norm_num)

/-- Embedding of `screen_position_to_complex` (`main.rs` lines 22-39) over
`ℚ`; `screen_w` and `screen_h` stand for `screen_width()` and
`screen_height()`.  Note the imaginary component the source computes:
`y_percent * dimensions.im - top_left.im`. -/
def screen_position_to_complex (screen_w screen_h : ℚ) (screen_position : ℚ × ℚ)
    (center dimensions : ℚ × ℚ) : ℚ × ℚ :=
  let x_percent := screen_position.1 / screen_w
  let y_percent := screen_position.2 / screen_h
  let top_left : ℚ × ℚ :=
    (center.1 - dimensions.1 / 2, center.2 + dimensions.2 / 2)
  (top_left.1 + x_percent * dimensions.1,
   y_percent * dimensions.2 - top_left.2)

/-- Embedding of `complex_to_screen_coordinate` (`main.rs` lines 41-58), the
companion inverse mapping used to draw the orbit overlay. -/
def complex_to_screen_coordinate (screen_w screen_h : ℚ) (z : ℚ × ℚ)
    (center dimensions : ℚ × ℚ) : ℚ × ℚ :=
  let top_left : ℚ × ℚ :=
    (center.1 - dimensions.1 / 2, center.2 + dimensions.2 / 2)
  let x_percent := (z.1 - top_left.1) / dimensions.1
  let y_percent := 1 - (top_left.2 - z.2) / dimensions.2
  (x_percent * screen_w, y_percent * screen_h)

/-- C4 (code behavior at the failing input): with a 100-by-100 screen,
`center = 0`, `dimensions = 4 + 4i` and fixed `x = 50`, moving the screen y
coordinate down from 0 to 100 moves the mapped imaginary part UP from -2 to
2 — strictly increasing, where the claim requires strictly decreasing. -/
theorem C4_code_divergence :
    (screen_position_to_complex 100 100 (50, 0) (0, 0) (4, 4)).2 = -2 ∧
    (screen_position_to_complex 100 100 (50, 100) (0, 0) (4, 4)).2 = 2 ∧
    (screen_position_to_complex 100 100 (50, 0) (0, 0) (4, 4)).2 <
      (screen_position_to_complex 100 100 (50, 100) (0, 0) (4, 4)).2 := by
  refine ⟨?_, ?_, ?_⟩ <;> norm_num [screen_position_to_complex]

/-- Supporting evidence that the imaginary component of
`screen_position_to_complex` is a slip: it fails to invert the companion
`complex_to_screen_coordinate` whenever `center.im ≠ 0` (here `center = i`,
where the round trip of `i` returns `-i`). -/
theorem screen_mapping_round_trip_fails :
    screen_position_to_complex 100 100
        (complex_to_screen_coordinate 100 100 (0, 1) (0, 1) (4, 4)) (0, 1) (4, 4) =
      (0, -1) := by
  norm_num [screen_position_to_complex, complex_to_screen_coordinate]

/-- Embedding of the orbit-overlay lookup in the main loop (`main.rs` lines
222-226): `mandelbrot_data.get(i).map(|(_, path)| path.as_slice()).unwrap_or(&[])`. -/
def orbit_lookup {F : Type} (mandelbrot_data : List (EscapeRecord F)) (i : Nat) :
    List (F × F) :=
  ((mandelbrot_data[i]?).map (fun r => r.2)).getD []

/-- Embedding of the c-label lookup in `controls_window` (`main.rs` lines
146-151): `mandelbrot_data.get(i).and_then(|(_, zs)| zs.get(1))`. -/
def c_label_lookup {F : Type} (mandelbrot_data : List (EscapeRecord F)) (i : Nat) :
    Option (F × F) :=
  (mandelbrot_data[i]?).bind (fun r => r.2[1]?)

/-- C5 (counterexample): at the concrete out-of-range index 5 into a
one-record grid, both record lookups return silently substituted defaults —
the empty path and the absent label — and report no out-of-range condition,
contradicting the claim that such a request fails loudly. -/
theorem C5_counterexample :
    orbit_lookup [((some 0 : Option Nat), [((3 : ℚ), (0 : ℚ))])] 5 = [] ∧
    c_label_lookup [((some 0 : Option Nat), [((3 : ℚ), (0 : ℚ))])] 5 = none := by
  constructor <;> rfl

/-- C5 (amended): every request of a record at an out-of-range pixel index is
handled silently — the orbit lookup substitutes the default empty path and
the c-label lookup yields nothing — with no loud failure, panic or report. -/
theorem C5_amended_silent_default {F : Type}
    (mandelbrot_data : List (EscapeRecord F)) (i : Nat)
    (h : mandelbrot_data.length ≤ i) :
    orbit_lookup mandelbrot_data i = [] ∧
    c_label_lookup mandelbrot_data i = none := by
  have hnone : mandelbrot_data[i]? = none := List.getElem?_eq_none h
  constructor <;> simp [orbit_lookup, c_label_lookup, hnone]

/-- Witness for the amended C5 at a concrete input. -/
theorem C5_amended_witness :
    orbit_lookup [((some 0 : Option Nat), [((3 : ℚ), (0 : ℚ))])] 9 = [] ∧
    c_label_lookup [((some 0 : Option Nat), [((3 : ℚ), (0 : ℚ))])] 9 = none :=
  C5_amended_silent_default [((some 0 : Option Nat), [((3 : ℚ), (0 : ℚ))])] 9
    (by decide)

/-- C10: the orbit-overlay lookup of the main loop is total for every index
and grid — it yields the escape path of record `i` when `i` is in range and
the empty sequence otherwise, so stale indices silently draw nothing. -/
theorem C10_orbit_lookup_total {F : Type}
    (mandelbrot_data : List (EscapeRecord F)) (i : Nat) :
    (∀ r, mandelbrot_data[i]? = some r → orbit_lookup mandelbrot_data i = r.2) ∧
    (mandelbrot_data.length ≤ i → orbit_lookup mandelbrot_data i = []) := by
  constructor
  · intro r hr; simp [orbit_lookup, hr]
  · intro h; simp [orbit_lookup, List.getElem?_eq_none h]

/-- Witness for C10 at concrete in-range and out-of-range indices. -/
theorem C10_witness :
    orbit_lookup [((some 0 : Option Nat), [((3 : ℚ), (0 : ℚ))])] 0 =
      [((3 : ℚ), (0 : ℚ))] ∧
    orbit_lookup [((some 0 : Option Nat), [((3 : ℚ), (0 : ℚ))])] 7 = [] :=
  ⟨(C10_orbit_lookup_total [((some 0 : Option Nat), [((3 : ℚ), (0 : ℚ))])] 0).1
      ((some 0 : Option Nat), [((3 : ℚ), (0 : ℚ))]) rfl,
   (C10_orbit_lookup_total [((some 0 : Option Nat), [((3 : ℚ), (0 : ℚ))])] 7).2
      (by decide)⟩

/-- Modelled from the spec: the discrete grayscale palette mode of the Color
Mapper (spec section 4.2).  No grayscale mode exists under `src/` — the only
palette in `main.rs` is the smoothed hue one — so this follows the spec's
words: `escape_time` is mapped linearly onto a single luminance channel
(clamped to a byte), `None` maps to pure black, and the function reads only
`(escape_time, iteration_max)`, never the path. -/
def grayscale_color (iteration_max : Nat) (escape_time : Option Nat) : List Nat :=
  match escape_time with
  | none => [0, 0, 0, 255]
  | some n =>
    let luminance := min 255 (n * 255 / iteration_max)
    [luminance, luminance, luminance, 255]

/-- C9: the grayscale mode is by construction a pure function of
`(escape_time, iteration_max)` only (its type admits no path); it maps
`None` to pure black for every `iteration_max`, and for fixed
`iteration_max` its single luminance channel is monotone non-decreasing in
`escape_time`. -/
theorem C9_grayscale_monotone (iteration_max a b : Nat) (hab : a ≤ b) :
    grayscale_color iteration_max none = [0, 0, 0, 255] ∧
    ∃ la lb, grayscale_color iteration_max (some a) = [la, la, la, 255] ∧
      grayscale_color iteration_max (some b) = [lb, lb, lb, 255] ∧ la ≤ lb := by
  refine ⟨rfl, _, _, rfl, rfl, ?_⟩
  exact min_le_min (le_refl 255)
    (Nat.div_le_div_right (Nat.mul_le_mul_right 255 hab))

/-- Witness for C9 at a concrete input. -/
theorem C9_witness :
    grayscale_color 10 none = [0, 0, 0, 255] ∧
    ∃ la lb, grayscale_color 10 (some 2) = [la, la, la, 255] ∧
      grayscale_color 10 (some 5) = [lb, lb, lb, 255] ∧ la ≤ lb :=
  C9_grayscale_monotone 10 2 5 (by decide)
